import Mathlib

/-!
A verification development for the fireauth token generator
(`src/generator.go`).  The Go source is shallowly embedded: machine
integers become `Nat`/`Int` with explicit reduction modulo 2^32 where the
SHA-256 arithmetic overflows, byte slices become `List Nat`, the Go `error`
return becomes `Except Err String`, and the single impurity
(`time.Now().Unix()`) becomes an explicit `now : Int` argument.  Every
definition is executable, so concrete tokens evaluate inside the kernel.
-/

set_option maxRecDepth 40000
set_option maxHeartbeats 2000000

namespace Fireauth

/-! ## Bytes and UTF-8 -/

/-- UTF-8 encoding of one code point, as Go strings store them. -/
def utf8Char (c : Char) : List Nat :=
  let n := c.toNat
  if n < 128 then [n]
  else if n < 2048 then [192 + n / 64, 128 + n % 64]
  else if n < 65536 then [224 + n / 4096, 128 + n / 64 % 64, 128 + n % 64]
  else [240 + n / 262144, 128 + n / 4096 % 64, 128 + n / 64 % 64, 128 + n % 64]

/-- The bytes of a string; Go's `[]byte(s)` and what `len(s)` counts. -/
def strToBytes (s : String) : List Nat := (s.data.map utf8Char).flatten

/-! ## URL-safe base64 without padding (`encode`, generator.go lines 147-149)

Go writes `base64.URLEncoding.EncodeToString(data)` and then strips every
`=`; stripping the padding of the standard encoder is the same as emitting
no padding at all, which is what `b64chars` does. -/

def b64Alphabet : String := "ABCDEFGHIJKLMNOPQRSTUVWXYZabcdefghijklmnopqrstuvwxyz0123456789-_"

def alphaList : List Char := b64Alphabet.data

def b64c (n : Nat) : Char := alphaList.getD n 'A'

def b64chars : List Nat → List Char
  | [] => []
  | [b0] => [b64c (b0 / 4), b64c (b0 % 4 * 16)]
  | [b0, b1] => [b64c (b0 / 4), b64c (b0 % 4 * 16 + b1 / 16), b64c (b1 % 16 * 4)]
  | b0 :: b1 :: b2 :: rest =>
    b64c (b0 / 4) :: b64c (b0 % 4 * 16 + b1 / 16) :: b64c (b1 % 16 * 4 + b2 / 64) ::
      b64c (b2 % 64) :: b64chars rest

/-- generator.go `encode`: URL-safe base64, `=` padding removed. -/
def encode (data : List Nat) : String := String.mk (b64chars data)

/-! ## SHA-256 (Go `crypto/sha256`) -/

def M32 : Nat := 4294967296

def rotr (n x : Nat) : Nat := x / 2 ^ n + x % 2 ^ n * 2 ^ (32 - n)

def bsig0 (x : Nat) : Nat := rotr 2 x ^^^ rotr 13 x ^^^ rotr 22 x
def bsig1 (x : Nat) : Nat := rotr 6 x ^^^ rotr 11 x ^^^ rotr 25 x
def ssig0 (x : Nat) : Nat := rotr 7 x ^^^ rotr 18 x ^^^ x / 2 ^ 3
def ssig1 (x : Nat) : Nat := rotr 17 x ^^^ rotr 19 x ^^^ x / 2 ^ 10

def shaK : List Nat :=
  [1116352408, 1899447441, 3049323471, 3921009573, 961987163, 1508970993,
   2453635748, 2870763221, 3624381080, 310598401, 607225278, 1426881987,
   1925078388, 2162078206, 2614888103, 3248222580, 3835390401, 4022224774,
   264347078, 604807628, 770255983, 1249150122, 1555081692, 1996064986,
   2554220882, 2821834349, 2952996808, 3210313671, 3336571891, 3584528711,
   113926993, 338241895, 666307205, 773529912, 1294757372, 1396182291,
   1695183700, 1986661051, 2177026350, 2456956037, 2730485921, 2820302411,
   3259730800, 3345764771, 3516065817, 3600352804, 4094571909, 275423344,
   430227734, 506948616, 659060556, 883997877, 958139571, 1322822218,
   1537002063, 1747873779, 1955562222, 2024104815, 2227730452, 2361852424,
   2428436474, 2756734187, 3204031479, 3329325298]

structure Hash8 where
  a : Nat
  b : Nat
  c : Nat
  d : Nat
  e : Nat
  f : Nat
  g : Nat
  h : Nat

def shaInit : Hash8 :=
  ⟨1779033703, 3144134277, 1013904242, 2773480762, 1359893119, 2600822924, 528734635, 1541459225⟩

def bytesToWords : List Nat → List Nat
  | b0 :: b1 :: b2 :: b3 :: rest => (((b0 * 256 + b1) * 256 + b2) * 256 + b3) :: bytesToWords rest
  | _ => []

def extendW (ws : Array Nat) : Array Nat :=
  (List.range 48).foldl
    (fun a _ =>
      let t := a.size
      a.push ((ssig1 (a.getD (t - 2) 0) + a.getD (t - 7) 0 + ssig0 (a.getD (t - 15) 0) +
        a.getD (t - 16) 0) % M32))
    ws

def chF (e f g : Nat) : Nat := (e &&& f) ^^^ ((e ^^^ 4294967295) &&& g)
def majF (a b c : Nat) : Nat := (a &&& b) ^^^ (a &&& c) ^^^ (b &&& c)

def shaStep (st : Hash8) (kw : Nat) : Hash8 :=
  let t1 := (st.h + bsig1 st.e + chF st.e st.f st.g + kw) % M32
  let t2 := (bsig0 st.a + majF st.a st.b st.c) % M32
  ⟨(t1 + t2) % M32, st.a, st.b, st.c, (st.d + t1) % M32, st.e, st.f, st.g⟩

def compress (st : Hash8) (block : List Nat) : Hash8 :=
  let w := extendW (List.toArray (bytesToWords block))
  let kw := List.zipWith (fun k x => (k + x) % M32) shaK w.toList
  let fin := kw.foldl shaStep st
  ⟨(st.a + fin.a) % M32, (st.b + fin.b) % M32, (st.c + fin.c) % M32, (st.d + fin.d) % M32,
   (st.e + fin.e) % M32, (st.f + fin.f) % M32, (st.g + fin.g) % M32, (st.h + fin.h) % M32⟩

def lenBytes (n : Nat) : List Nat :=
  [n / 2 ^ 56 % 256, n / 2 ^ 48 % 256, n / 2 ^ 40 % 256, n / 2 ^ 32 % 256,
   n / 2 ^ 24 % 256, n / 2 ^ 16 % 256, n / 2 ^ 8 % 256, n % 256]

def padMsg (msg : List Nat) : List Nat :=
  let L := msg.length
  msg ++ 128 :: List.replicate ((64 - (L + 9) % 64) % 64) 0 ++ lenBytes (8 * L)

def toBlocksAux : Nat → List Nat → List (List Nat)
  | 0, _ => []
  | _ + 1, [] => []
  | n + 1, l => l.take 64 :: toBlocksAux n (l.drop 64)

def toBlocks (l : List Nat) : List (List Nat) := toBlocksAux l.length l

def wordBytes (w : Nat) : List Nat := [w / 16777216 % 256, w / 65536 % 256, w / 256 % 256, w % 256]

def sha256 (msg : List Nat) : List Nat :=
  let fin := (toBlocks (padMsg msg)).foldl compress shaInit
  wordBytes fin.a ++ wordBytes fin.b ++ wordBytes fin.c ++ wordBytes fin.d ++
    wordBytes fin.e ++ wordBytes fin.f ++ wordBytes fin.g ++ wordBytes fin.h

/-! ## HMAC-SHA256 (Go `crypto/hmac` over `sha256.New`)

`GoHMAC` models the stateful object returned by `hmac.New`: a key and the
data written so far.  Its `Sum(b)` method appends the tag of the data
written so far (here: of nothing) to `b` and leaves the state alone; this
is the semantics `sign` in generator.go relies on. -/

def normKey (key : List Nat) : List Nat :=
  let k := if 64 < key.length then sha256 key else key
  k ++ List.replicate (64 - k.length) 0

def hmacTag (key msg : List Nat) : List Nat :=
  let k := normKey key
  sha256 (k.map (fun b => b ^^^ 0x5c) ++ sha256 (k.map (fun b => b ^^^ 0x36) ++ msg))

structure GoHMAC where
  key : List Nat
  written : List Nat

def hmacNew (key : List Nat) : GoHMAC := ⟨key, []⟩

def GoHMAC.sum (h : GoHMAC) (b : List Nat) : List Nat := b ++ hmacTag h.key h.written

/-- generator.go `sign` (lines 151-153):
`encode(hmac.New(sha256.New, []byte(secret)).Sum([]byte(message)))`.
Nothing is ever written into the HMAC state before `Sum` is called. -/
def sign (message secret : String) : String :=
  encode (GoHMAC.sum (hmacNew (strToBytes secret)) (strToBytes message))

/-! ## JSON values and Go `encoding/json` serialisation

Payload values (`map[string]interface{}`) are modelled by `JVal`; nested
objects (`JObj`) stand for Go maps in their canonical key-sorted order,
which is the order `json.Marshal` emits.  `escapeChar` reproduces the
encoder's string escaping, including the HTML escapes for `<`, `>`, `&`. -/

mutual
inductive JVal where
  | jnull : JVal
  | jbool (b : Bool) : JVal
  | jint (n : Int) : JVal
  | jstr (s : String) : JVal
  | jarr (a : JArr) : JVal
  | jobj (o : JObj) : JVal
inductive JArr where
  | nil : JArr
  | cons (v : JVal) (tl : JArr) : JArr
inductive JObj where
  | nil : JObj
  | cons (k : String) (v : JVal) (tl : JObj) : JObj
end

def hexDigit (d : Nat) : Char := Char.ofNat (if d < 10 then 48 + d else 87 + d)

def escapeChar (c : Char) : String :=
  if c = '"' then "\\\""
  else if c = '\\' then "\\\\"
  else if c = '\n' then "\\n"
  else if c = '\r' then "\\r"
  else if c = '\t' then "\\t"
  else if c.toNat < 32 then "\\u00" ++ String.mk [hexDigit (c.toNat / 16), hexDigit (c.toNat % 16)]
  else if c = '<' then "\\u003c"
  else if c = '>' then "\\u003e"
  else if c = '&' then "\\u0026"
  else if c.toNat = 8232 then "\\u2028"
  else if c.toNat = 8233 then "\\u2029"
  else String.mk [c]

def strLit (s : String) : String := "\"" ++ String.join (s.data.map escapeChar) ++ "\""

def lbr : String := "\x7b"
def rbr : String := "\x7d"

mutual
def jsonVal : JVal → String
  | .jnull => "null"
  | .jbool true => "true"
  | .jbool false => "false"
  | .jint n => toString n
  | .jstr s => strLit s
  | .jarr a => "[" ++ jsonArr a ++ "]"
  | .jobj o => lbr ++ jsonObj o ++ rbr
def jsonArr : JArr → String
  | .nil => ""
  | .cons v .nil => jsonVal v
  | .cons v tl => jsonVal v ++ "," ++ jsonArr tl
def jsonObj : JObj → String
  | .nil => ""
  | .cons k v .nil => strLit k ++ ":" ++ jsonVal v
  | .cons k v tl => strLit k ++ ":" ++ jsonVal v ++ "," ++ jsonObj tl
end

/-- generator.go `Data`: `map[string]interface{}`, as an association list. -/
abbrev Data := List (String × JVal)

/-- Byte-lexicographic order on strings, the order `sort.Strings` uses;
on UTF-8 bytes it coincides with code-point order. -/
def charsLe : List Char → List Char → Bool
  | [], _ => true
  | _ :: _, [] => false
  | x :: xs, y :: ys =>
    if x.toNat < y.toNat then true
    else if y.toNat < x.toNat then false
    else charsLe xs ys

def insertSorted (p : String × JVal) : Data → Data
  | [] => [p]
  | q :: rest => if charsLe p.1.data q.1.data then p :: q :: rest else q :: insertSorted p rest

/-- `json.Marshal` writes a map's keys in sorted order. -/
def sortByKey (m : Data) : Data := m.foldr insertSorted []

def jsonData (m : Data) : String :=
  lbr ++ String.intercalate "," (m.map (fun kv => strLit kv.1 ++ ":" ++ jsonVal kv.2)) ++ rbr

/-! ## The generator (generator.go) -/

/-- generator.go `Option` (the four claim flags). -/
structure TokenOption where
  notBefore : Int
  expiration : Int
  admin : Bool
  debug : Bool

/-- The five error values declared at the top of generator.go. -/
inductive Err where
  | noUIDKey
  | uidNotString
  | uidTooLong
  | emptyDataNoOptions
  | tokenTooLong
deriving DecidableEq

def optAdmin : Option TokenOption → Bool
  | none => false
  | some o => o.admin

def optDebug : Option TokenOption → Bool
  | none => false
  | some o => o.debug

def optNbf : Option TokenOption → Int
  | none => 0
  | some o => o.notBefore

def optExp : Option TokenOption → Int
  | none => 0
  | some o => o.expiration

/-- A field value of the marshalled claim struct. -/
inductive CVal where
  | cnull : CVal
  | cint (n : Int) : CVal
  | cbool (b : Bool) : CVal
  | cobj (m : Data) : CVal

/-- The `d` field: a nil map marshals to JSON `null` (the field carries no
`omitempty` tag), a present map to its key-sorted object. -/
def dataField : Option Data → CVal
  | none => .cnull
  | some m => .cobj (sortByKey m)

/-- The embedded `*Option` contribution to the claim struct's fields: each
field carries `omitempty` (dropped at its zero value), and a nil embedded
pointer drops all four. -/
def optFields : Option TokenOption → List (String × CVal)
  | none => []
  | some o =>
    (if o.notBefore = 0 then [] else [("nbf", CVal.cint o.notBefore)]) ++
    (if o.expiration = 0 then [] else [("exp", CVal.cint o.expiration)]) ++
    (if o.admin then [("admin", CVal.cbool true)] else []) ++
    (if o.debug then [("debug", CVal.cbool true)] else [])

/-- The fields of the claim struct of CreateToken (lines 85-95), in the
order `encoding/json` emits them: the embedded `*Option` first, then `v`,
`d`, `iat`. -/
def claimFields (data : Option Data) (options : Option TokenOption) (now : Int) :
    List (String × CVal) :=
  optFields options ++
    [("v", CVal.cint 0), ("d", dataField data), ("iat", CVal.cint now)]

def cvalStr : CVal → String
  | .cnull => "null"
  | .cint n => toString n
  | .cbool true => "true"
  | .cbool false => "false"
  | .cobj m => jsonData m

/-- `json.Marshal(claim)` (line 98). -/
def claimJson (data : Option Data) (options : Option TokenOption) (now : Int) : String :=
  lbr ++
    String.intercalate ","
      ((claimFields data options now).map (fun kv => strLit kv.1 ++ ":" ++ cvalStr kv.2)) ++
  rbr

/-- The marshalled header struct of `encodedHeader` (lines 115-127). -/
def headerJson : String :=
  lbr ++
    String.intercalate "," [strLit "alg" ++ ":" ++ strLit "HS256", strLit "typ" ++ ":" ++ strLit "JWT"] ++
  rbr

/-- generator.go `encodedHeader` (its marshal step cannot fail). -/
def encodedHeader : String := encode (strToBytes headerJson)

def tokenSep : String := "."

/-- generator.go `validate` (lines 131-145). `data["uid"]` on a nil map
yields the zero value with `ok = false`, hence the `Option.bind`. -/
def validate (data : Option Data) (isAdmind : Bool) : Option Err :=
  match data.bind (List.lookup "uid") with
  | none => if isAdmind then none else some .noUIDKey
  | some v =>
    match v with
    | .jstr s => if 256 < (strToBytes s).length then some .uidTooLong else none
    | _ => some .uidNotString

/-- Line 69 of CreateToken:
`data == nil && (options == nil || (!options.Admin && !options.Debug))`. -/
def emptyAndUseless (data : Option Data) (options : Option TokenOption) : Bool :=
  data.isNone &&
    (match options with
     | none => true
     | some o => !o.admin && !o.debug)

/-- `secureString` of CreateToken (line 105): encoded header, the
separator, the encoded claims. -/
def signingInput (data : Option Data) (options : Option TokenOption) (now : Int) : String :=
  encodedHeader ++ tokenSep ++ encode (strToBytes (claimJson data options now))

/-- The token assembled on line 107: `secureString + "." + signature`. -/
def tokenOf (secret : String) (data : Option Data) (options : Option TokenOption) (now : Int) :
    String :=
  signingInput data options now ++ tokenSep ++ sign (signingInput data options now) secret

/-- generator.go `CreateToken` (lines 67-113); `now` stands for the one
reading of `time.Now().Unix()`. -/
def createToken (secret : String) (data : Option Data) (options : Option TokenOption)
    (now : Int) : Except Err String :=
  if emptyAndUseless data options then .error .emptyDataNoOptions
  else
    match validate data (optAdmin options) with
    | some e => .error e
    | none =>
      let token := tokenOf secret data options now
      if 1024 < (strToBytes token).length then .error .tokenTooLong
      else .ok token

/-! ## The validation rules as the specification states them (§4.1)

These four Bool-valued predicates transcribe the spec's rules word for
word, to compare against what the code does.  Rule 2 is the one whose
wording ("the payload is present but lacks a uid key") diverges from the
code, which never requires the payload to be present. -/

/-- Spec §4.1 rule 1: payload absent AND (no options, or neither admin nor
debug set). -/
def specRule1 (data : Option Data) (options : Option TokenOption) : Bool :=
  data.isNone && (options.isNone || (!optAdmin options && !optDebug options))

/-- Spec §4.1 rule 2: payload present but lacking a "uid" key, and options
do not assert admin. -/
def specRule2 (data : Option Data) (options : Option TokenOption) : Bool :=
  data.isSome && (data.bind (List.lookup "uid")).isNone && !optAdmin options

/-- Spec §4.1 rule 3: "uid" present but not a string. -/
def specRule3 (data : Option Data) : Bool :=
  match data.bind (List.lookup "uid") with
  | some (JVal.jstr _) => false
  | some _ => true
  | none => false

/-- Spec §4.1 rule 4: "uid" present, a string, longer than 256. -/
def specRule4 (data : Option Data) : Bool :=
  match data.bind (List.lookup "uid") with
  | some (JVal.jstr s) => 256 < (strToBytes s).length
  | _ => false

/-! ## Concrete sample inputs for the witnesses and counterexamples -/

def payloadA : Option Data := some [("uid", JVal.jstr "1")]

def optionsDebug : TokenOption := ⟨0, 0, false, true⟩

def optionsAdmin : TokenOption := ⟨0, 0, true, false⟩

def uidBig : String := String.mk (List.replicate 256 'a')

def uidOver : String := String.mk (List.replicate 257 'a')

def payloadBig : Option Data := some [("bulk", JVal.jstr "xx"), ("uid", JVal.jstr uidBig)]

def payloadNotString : Data := [("uid", JVal.jint 42)]

def payloadOver : Data := [("uid", JVal.jstr uidOver)]

/-! ## Basic lemmas about the embedding -/

theorem strToBytes_append (a b : String) :
    strToBytes (a ++ b) = strToBytes a ++ strToBytes b := by
  simp [strToBytes, String.data_append]

theorem b64c_mem (n : Nat) : b64c n ∈ alphaList := by
  unfold b64c
  rcases Nat.lt_or_ge n alphaList.length with h | h
  · rw [List.getD_eq_getElem?_getD, List.getElem?_eq_getElem h]
    exact List.getElem_mem _
  · rw [List.getD_eq_getElem?_getD, List.getElem?_eq_none h]
    decide

theorem b64chars_mem (l : List Nat) (c : Char) (h : c ∈ b64chars l) : c ∈ alphaList := by
  induction l using b64chars.induct with
  | case1 => simp [b64chars] at h
  | case2 b0 =>
    simp [b64chars] at h
    rcases h with h | h <;> (subst h; exact b64c_mem _)
  | case3 b0 b1 =>
    simp [b64chars] at h
    rcases h with h | h | h <;> (subst h; exact b64c_mem _)
  | case4 b0 b1 b2 rest ih =>
    simp [b64chars] at h
    rcases h with h | h | h | h | h
    · subst h; exact b64c_mem _
    · subst h; exact b64c_mem _
    · subst h; exact b64c_mem _
    · subst h; exact b64c_mem _
    · exact ih h

theorem b64chars_ne_nil (l : List Nat) (h : l ≠ []) : b64chars l ≠ [] := by
  match l with
  | [] => exact absurd rfl h
  | [b0] => simp [b64chars]
  | [b0, b1] => simp [b64chars]
  | b0 :: b1 :: b2 :: rest => simp [b64chars]

theorem encode_data (l : List Nat) : (encode l).data = b64chars l := rfl

theorem encode_ne_empty (l : List Nat) (h : l ≠ []) : encode l ≠ "" := by
  intro he
  have : (encode l).data = [] := by rw [he]
  rw [encode_data] at this
  exact b64chars_ne_nil l h this

theorem sha256_length (m : List Nat) : (sha256 m).length = 32 := by
  simp [sha256, wordBytes]

theorem hmacTag_length (k m : List Nat) : (hmacTag k m).length = 32 := by
  simp only [hmacTag]
  exact sha256_length _

/-- What generator.go's `sign` amounts to: the HMAC state has had nothing
written into it when `Sum` runs, so the tag appended after the message
bytes is the tag of the empty message. -/
theorem sign_eq (message secret : String) :
    sign message secret =
      encode (strToBytes message ++ hmacTag (strToBytes secret) []) := rfl

/-! ## Shape of a successful CreateToken -/

theorem createToken_ok {secret : String} {data : Option Data} {options : Option TokenOption}
    {now : Int} {tok : String} (h : createToken secret data options now = .ok tok) :
    tok = tokenOf secret data options now := by
  unfold createToken at h
  split at h
  · simp at h
  · split at h
    · simp at h
    · simp only [] at h
      split at h
      · simp at h
      · exact (Except.ok.injEq _ _).mp h |>.symm

theorem createToken_ok_le {secret : String} {data : Option Data} {options : Option TokenOption}
    {now : Int} {tok : String} (h : createToken secret data options now = .ok tok) :
    (strToBytes tok).length ≤ 1024 := by
  have hshape := createToken_ok h
  unfold createToken at h
  split at h
  · simp at h
  · split at h
    · simp at h
    · simp only [] at h
      split at h
      · simp at h
      · rename_i hlen
        rw [hshape]
        omega

/-! ## How validate and CreateToken dispatch their errors -/

theorem validate_eq_noUID (data : Option Data) (adm : Bool) :
    validate data adm = some Err.noUIDKey ↔
      data.bind (List.lookup "uid") = none ∧ adm = false := by
  unfold validate
  cases hv : data.bind (List.lookup "uid") with
  | none => cases adm <;> simp
  | some v => cases v <;> simp <;> (try (split <;> simp))

theorem validate_eq_notString (data : Option Data) (adm : Bool) :
    validate data adm = some Err.uidNotString ↔
      ∃ v, data.bind (List.lookup "uid") = some v ∧ ∀ s, v ≠ JVal.jstr s := by
  unfold validate
  cases hv : data.bind (List.lookup "uid") with
  | none => cases adm <;> simp
  | some v => cases v <;> simp <;> (try (split <;> simp))

theorem validate_eq_tooLong (data : Option Data) (adm : Bool) :
    validate data adm = some Err.uidTooLong ↔
      ∃ s, data.bind (List.lookup "uid") = some (JVal.jstr s) ∧
        256 < (strToBytes s).length := by
  unfold validate
  cases hv : data.bind (List.lookup "uid") with
  | none => cases adm <;> simp
  | some v => cases v <;> simp <;> (try (split <;> simp_all))

theorem validate_uid_ok (data : Option Data) (adm : Bool) (s : String)
    (h : data.bind (List.lookup "uid") = some (JVal.jstr s))
    (hlen : (strToBytes s).length ≤ 256) : validate data adm = none := by
  unfold validate
  rw [h]
  simp
  omega

theorem validate_admin_none (adm : Bool) (h : adm = true) : validate none adm = none := by
  subst h
  rfl

theorem validate_no_other (data : Option Data) (adm : Bool) (e : Err)
    (h : validate data adm = some e) :
    e = Err.noUIDKey ∨ e = Err.uidNotString ∨ e = Err.uidTooLong := by
  unfold validate at h
  cases hv : data.bind (List.lookup "uid") with
  | none => rw [hv] at h; cases adm <;> simp_all
  | some v =>
    rw [hv] at h
    cases v <;> simp_all
    try (split at h <;> simp_all)

theorem createToken_eq_empty_iff (secret : String) (data : Option Data)
    (options : Option TokenOption) (now : Int) :
    createToken secret data options now = .error Err.emptyDataNoOptions ↔
      emptyAndUseless data options = true := by
  unfold createToken
  cases hg : emptyAndUseless data options <;> simp
  cases hv : validate data (optAdmin options) with
  | none => simp only []; split <;> simp
  | some e =>
    simp
    intro he
    subst he
    rcases validate_no_other _ _ _ hv with h | h | h <;> simp_all

theorem createToken_eq_err_of_validate (secret : String) (data : Option Data)
    (options : Option TokenOption) (now : Int) (e : Err)
    (hg : emptyAndUseless data options = false)
    (hv : validate data (optAdmin options) = some e) :
    createToken secret data options now = .error e := by
  unfold createToken
  rw [hg]
  simp [hv]

theorem createToken_eq_noUID_iff (secret : String) (data : Option Data)
    (options : Option TokenOption) (now : Int) :
    createToken secret data options now = .error Err.noUIDKey ↔
      emptyAndUseless data options = false ∧
        validate data (optAdmin options) = some Err.noUIDKey := by
  unfold createToken
  cases hg : emptyAndUseless data options <;> simp
  cases hv : validate data (optAdmin options) with
  | none => simp only []; split <;> simp
  | some e => simp

theorem createToken_eq_notString_iff (secret : String) (data : Option Data)
    (options : Option TokenOption) (now : Int) :
    createToken secret data options now = .error Err.uidNotString ↔
      emptyAndUseless data options = false ∧
        validate data (optAdmin options) = some Err.uidNotString := by
  unfold createToken
  cases hg : emptyAndUseless data options <;> simp
  cases hv : validate data (optAdmin options) with
  | none => simp only []; split <;> simp
  | some e => simp

theorem createToken_eq_uidTooLong_iff (secret : String) (data : Option Data)
    (options : Option TokenOption) (now : Int) :
    createToken secret data options now = .error Err.uidTooLong ↔
      emptyAndUseless data options = false ∧
        validate data (optAdmin options) = some Err.uidTooLong := by
  unfold createToken
  cases hg : emptyAndUseless data options <;> simp
  cases hv : validate data (optAdmin options) with
  | none => simp only []; split <;> simp
  | some e => simp

theorem createToken_eq_tokenTooLong_iff (secret : String) (data : Option Data)
    (options : Option TokenOption) (now : Int) :
    createToken secret data options now = .error Err.tokenTooLong ↔
      emptyAndUseless data options = false ∧
        validate data (optAdmin options) = none ∧
        1024 < (strToBytes (tokenOf secret data options now)).length := by
  unfold createToken
  cases hg : emptyAndUseless data options <;> simp
  cases hv : validate data (optAdmin options) with
  | none => simp only []; split <;> simp_all
  | some e =>
    simp
    intro he
    subst he
    rcases validate_no_other _ _ _ hv with h | h | h <;> simp_all

/-! ## Looking fields up in the marshalled claim struct -/

theorem lookup_skip {α : Type} (k a : String) (h : k ≠ a) (x : α) (l : List (String × α)) :
    List.lookup k ((a, x) :: l) = List.lookup k l := by
  have hb : (k == a) = false := beq_eq_false_iff_ne.mpr h
  simp [List.lookup, hb]

theorem lookup_append_of_forall {α : Type} (k : String) (l1 l2 : List (String × α))
    (h : ∀ p ∈ l1, k ≠ p.1) : List.lookup k (l1 ++ l2) = List.lookup k l2 := by
  induction l1 with
  | nil => rfl
  | cons p tl ih =>
    cases p with
    | mk a x =>
      rw [List.cons_append, lookup_skip k a (h (a, x) (by simp)) x (tl ++ l2)]
      exact ih (fun q hq => h q (by simp [hq]))

theorem optFields_keys (options : Option TokenOption) (p : String × CVal)
    (hp : p ∈ optFields options) :
    p.1 = "nbf" ∨ p.1 = "exp" ∨ p.1 = "admin" ∨ p.1 = "debug" := by
  cases options with
  | none => simp [optFields] at hp
  | some o =>
    simp only [optFields] at hp
    split at hp <;> split at hp <;> split at hp <;> split at hp <;>
      simp_all <;> rcases hp with h | h | h | h <;> simp_all

theorem lookup_claimFields_of_ne (k : String) (data : Option Data)
    (options : Option TokenOption) (now : Int)
    (h1 : k ≠ "nbf") (h2 : k ≠ "exp") (h3 : k ≠ "admin") (h4 : k ≠ "debug") :
    List.lookup k (claimFields data options now) =
      List.lookup k [("v", CVal.cint 0), ("d", dataField data), ("iat", CVal.cint now)] := by
  unfold claimFields
  refine lookup_append_of_forall k _ _ (fun p hp => ?_)
  rcases optFields_keys options p hp with h | h | h | h <;> simp_all

theorem lookup_claimFields_v (data : Option Data) (options : Option TokenOption) (now : Int) :
    List.lookup "v" (claimFields data options now) = some (CVal.cint 0) := by
  rw [lookup_claimFields_of_ne "v" data options now (by decide) (by decide) (by decide)
    (by decide)]
  rfl

theorem lookup_claimFields_iat (data : Option Data) (options : Option TokenOption) (now : Int) :
    List.lookup "iat" (claimFields data options now) = some (CVal.cint now) := by
  rw [lookup_claimFields_of_ne "iat" data options now (by decide) (by decide) (by decide)
    (by decide)]
  rfl

theorem lookup_claimFields_d (data : Option Data) (options : Option TokenOption) (now : Int) :
    List.lookup "d" (claimFields data options now) = some (dataField data) := by
  rw [lookup_claimFields_of_ne "d" data options now (by decide) (by decide) (by decide)
    (by decide)]
  rfl

theorem lookup_claimFields_nbf (data : Option Data) (options : Option TokenOption) (now : Int) :
    List.lookup "nbf" (claimFields data options now) =
      (if optNbf options = 0 then none else some (CVal.cint (optNbf options))) := by
  cases options with
  | none => rfl
  | some o =>
    by_cases h1 : o.notBefore = 0 <;> by_cases h2 : o.expiration = 0 <;>
      by_cases h3 : o.admin = true <;> by_cases h4 : o.debug = true <;>
      simp_all [claimFields, optFields, optNbf, List.lookup]

theorem lookup_claimFields_exp (data : Option Data) (options : Option TokenOption) (now : Int) :
    List.lookup "exp" (claimFields data options now) =
      (if optExp options = 0 then none else some (CVal.cint (optExp options))) := by
  cases options with
  | none => rfl
  | some o =>
    by_cases h1 : o.notBefore = 0 <;> by_cases h2 : o.expiration = 0 <;>
      by_cases h3 : o.admin = true <;> by_cases h4 : o.debug = true <;>
      simp_all [claimFields, optFields, optExp, List.lookup]

theorem lookup_claimFields_admin (data : Option Data) (options : Option TokenOption) (now : Int) :
    List.lookup "admin" (claimFields data options now) =
      (if optAdmin options then some (CVal.cbool true) else none) := by
  cases options with
  | none => rfl
  | some o =>
    by_cases h1 : o.notBefore = 0 <;> by_cases h2 : o.expiration = 0 <;>
      by_cases h3 : o.admin = true <;> by_cases h4 : o.debug = true <;>
      simp_all [claimFields, optFields, optAdmin, List.lookup]

theorem lookup_claimFields_debug (data : Option Data) (options : Option TokenOption) (now : Int) :
    List.lookup "debug" (claimFields data options now) =
      (if optDebug options then some (CVal.cbool true) else none) := by
  cases options with
  | none => rfl
  | some o =>
    by_cases h1 : o.notBefore = 0 <;> by_cases h2 : o.expiration = 0 <;>
      by_cases h3 : o.admin = true <;> by_cases h4 : o.debug = true <;>
      simp_all [claimFields, optFields, optDebug, List.lookup]

/-! ## Shape of the assembled token -/

theorem tokenOf_eq (secret : String) (data : Option Data) (options : Option TokenOption)
    (now : Int) :
    tokenOf secret data options now =
      encodedHeader ++ tokenSep ++ encode (strToBytes (claimJson data options now)) ++
        tokenSep ++ sign (signingInput data options now) secret := by
  simp [tokenOf, signingInput, String.append_assoc]

theorem strToBytes_claimJson_ne_nil (data : Option Data) (options : Option TokenOption)
    (now : Int) : strToBytes (claimJson data options now) ≠ [] := by
  unfold claimJson
  rw [strToBytes_append, strToBytes_append]
  rw [show strToBytes lbr = [123] from rfl]
  simp

theorem sign_bytes_ne_nil (message secret : String) :
    strToBytes message ++ hmacTag (strToBytes secret) [] ≠ [] := by
  intro h
  have hl := congrArg List.length h
  rw [List.length_append, hmacTag_length] at hl
  simp at hl

theorem specRule1_eq (data : Option Data) (options : Option TokenOption) :
    specRule1 data options = emptyAndUseless data options := by
  cases data <;> cases options <;> rfl

/-! ## The claims -/

/-- Claim C1, counterexample.  At a concrete successful call the third
(signature) segment differs from the URL-safe unpadded base64 encoding of
S followed by the HMAC-SHA256 tag of S itself: the tag the code appends is
not the tag of the signing input. -/
theorem c1_cex :
    createToken "secret" payloadA none 0 = .ok (tokenOf "secret" payloadA none 0) ∧
    tokenOf "secret" payloadA none 0 =
      signingInput payloadA none 0 ++ tokenSep ++ sign (signingInput payloadA none 0) "secret" ∧
    sign (signingInput payloadA none 0) "secret" ≠
      encode (strToBytes (signingInput payloadA none 0) ++
        hmacTag (strToBytes "secret") (strToBytes (signingInput payloadA none 0))) :=
  ⟨by rfl, rfl, by decide⟩

/-- Claim C1 as amended: for every successful CreateToken call the third
segment is the URL-safe unpadded base64 encoding of S followed by the
32-byte HMAC-SHA256 tag of the EMPTY message under the secret (the code
never writes S into the HMAC state), where S is the signing input. -/
theorem c1_amended (secret : String) (data : Option Data) (options : Option TokenOption)
    (now : Int) (tok : String) (h : createToken secret data options now = .ok tok) :
    tok = signingInput data options now ++ tokenSep ++
        encode (strToBytes (signingInput data options now) ++ hmacTag (strToBytes secret) []) ∧
      (hmacTag (strToBytes secret) []).length = 32 := by
  refine ⟨?_, hmacTag_length _ _⟩
  rw [createToken_ok h]
  rfl

/-- Witness for C1's amended theorem at a concrete input. -/
theorem c1_w :
    tokenOf "secret" payloadA none 0 = signingInput payloadA none 0 ++ tokenSep ++
        encode (strToBytes (signingInput payloadA none 0) ++ hmacTag (strToBytes "secret") []) ∧
      (hmacTag (strToBytes "secret") []).length = 32 :=
  c1_amended "secret" payloadA none 0 (tokenOf "secret" payloadA none 0) (by rfl)

/-- Claim C2, counterexample: a nil payload with only debug set IS refused
with the missing-uid error, contrary to the claim. -/
theorem c2_cex :
    optDebug (some optionsDebug) = true ∧ optAdmin (some optionsDebug) = false ∧
    createToken "secret" none (some optionsDebug) 0 = .error Err.noUIDKey :=
  ⟨rfl, rfl, rfl⟩

/-- Claim C2 as amended: a nil payload escapes uid validation only when the
options assert admin; with only debug set it passes the empty-guard and
then fails with the missing-uid error.  The missing-uid error is returned
exactly when the empty-guard does not fire, the payload (present or
absent) has no "uid" key, and the options do not assert admin. -/
theorem c2_amended (secret : String) (data : Option Data) (options : Option TokenOption)
    (now : Int) :
    (createToken secret data options now = .error Err.noUIDKey ↔
      emptyAndUseless data options = false ∧
        data.bind (List.lookup "uid") = none ∧ optAdmin options = false) ∧
    (optAdmin options = true → createToken secret data options now ≠ .error Err.noUIDKey) := by
  constructor
  · rw [createToken_eq_noUID_iff, validate_eq_noUID]
  · intro ha hc
    rw [createToken_eq_noUID_iff, validate_eq_noUID] at hc
    simp_all

/-- Claim C3, counterexample: minting with a nil payload succeeds (admin
token) and the claims JSON carries a "d" key with value null, so the
decoded claims object does contain "d". -/
theorem c3_cex :
    createToken "secret" none (some optionsAdmin) 0 =
      .ok (tokenOf "secret" none (some optionsAdmin) 0) ∧
    claimJson none (some optionsAdmin) 0 =
      "\x7b\"admin\":true,\"v\":0,\"d\":null,\"iat\":0\x7d" ∧
    List.lookup "d" (claimFields none (some optionsAdmin) 0) = some CVal.cnull ∧
    tokenOf "secret" none (some optionsAdmin) 0 =
      encodedHeader ++ tokenSep ++ encode (strToBytes (claimJson none (some optionsAdmin) 0)) ++
        tokenSep ++ sign (signingInput none (some optionsAdmin) 0) "secret" :=
  ⟨by rfl, by decide, rfl, tokenOf_eq "secret" none (some optionsAdmin) 0⟩

/-- Claim C3 as amended: when CreateToken succeeds with an absent payload,
the claims object contains a "d" key whose value is JSON null (the field
has no omitempty tag, so a nil map is emitted as null, not omitted). -/
theorem c3_amended (secret : String) (options : Option TokenOption) (now : Int) (tok : String)
    (h : createToken secret none options now = .ok tok) :
    List.lookup "d" (claimFields none options now) = some CVal.cnull ∧
    tok = encodedHeader ++ tokenSep ++ encode (strToBytes (claimJson none options now)) ++
        tokenSep ++ sign (signingInput none options now) secret := by
  refine ⟨lookup_claimFields_d none options now, ?_⟩
  rw [createToken_ok h]
  exact tokenOf_eq secret none options now

/-- Witness for C3's amended theorem at a concrete input. -/
theorem c3_w :
    List.lookup "d" (claimFields none (some optionsAdmin) 0) = some CVal.cnull ∧
    tokenOf "secret" none (some optionsAdmin) 0 =
      encodedHeader ++ tokenSep ++ encode (strToBytes (claimJson none (some optionsAdmin) 0)) ++
        tokenSep ++ sign (signingInput none (some optionsAdmin) 0) "secret" :=
  c3_amended "secret" (some optionsAdmin) 0 (tokenOf "secret" none (some optionsAdmin) 0)
    (by rfl)

/-- Claim C4, counterexample: at the input (nil payload, debug-only
options) none of the spec's §4.1 rules fails, yet CreateToken returns the
missing-uid error — so, as stated over the spec's rules, the first failing
rule does not determine the outcome. -/
theorem c4_cex :
    specRule1 none (some optionsDebug) = false ∧
    specRule2 none (some optionsDebug) = false ∧
    specRule3 none = false ∧
    specRule4 none = false ∧
    createToken "secret" none (some optionsDebug) 0 = .error Err.noUIDKey :=
  ⟨rfl, rfl, rfl, rfl, rfl⟩

/-- Claim C4 as amended: with rule 2 widened to apply to an absent payload
as well (it fails whenever the "uid" key is missing and options do not
assert admin), the four rules are evaluated in the stated order and the
first failing rule determines the error; in particular a nil payload with
no options, or with neither admin nor debug, fails with the
empty-data-no-options error and no later rule is consulted. -/
theorem c4_amended (secret : String) (data : Option Data) (options : Option TokenOption)
    (now : Int) :
    (createToken secret data options now = .error Err.emptyDataNoOptions ↔
      specRule1 data options = true) ∧
    (createToken secret data options now = .error Err.noUIDKey ↔
      specRule1 data options = false ∧
        data.bind (List.lookup "uid") = none ∧ optAdmin options = false) ∧
    (createToken secret data options now = .error Err.uidNotString ↔
      specRule1 data options = false ∧
        ∃ v, data.bind (List.lookup "uid") = some v ∧ ∀ s, v ≠ JVal.jstr s) ∧
    (createToken secret data options now = .error Err.uidTooLong ↔
      specRule1 data options = false ∧
        ∃ s, data.bind (List.lookup "uid") = some (JVal.jstr s) ∧
          256 < (strToBytes s).length) := by
  rw [specRule1_eq]
  refine ⟨createToken_eq_empty_iff secret data options now, ?_, ?_, ?_⟩
  · rw [createToken_eq_noUID_iff, validate_eq_noUID]
  · rw [createToken_eq_notString_iff, validate_eq_notString]
  · rw [createToken_eq_uidTooLong_iff, validate_eq_tooLong]

/-- Claim C5 (confirmed): whenever the payload carries a "uid" key,
regardless of the options, a non-string value fails with the
uid-not-a-string error, a string longer than 256 bytes fails with the
uid-too-long error, and a string of at most 256 bytes passes every uid
check of validate. -/
theorem c5_uid_checks (secret : String) (m : Data) (options : Option TokenOption) (now : Int)
    (v : JVal) (h : List.lookup "uid" m = some v) :
    ((∀ s, v ≠ JVal.jstr s) →
      createToken secret (some m) options now = .error Err.uidNotString) ∧
    (∀ s, v = JVal.jstr s → 256 < (strToBytes s).length →
      createToken secret (some m) options now = .error Err.uidTooLong) ∧
    (∀ s, v = JVal.jstr s → (strToBytes s).length ≤ 256 →
      validate (some m) (optAdmin options) = none) := by
  have hb : (some m : Option Data).bind (List.lookup "uid") = some v := by simpa using h
  have hg : emptyAndUseless (some m) options = false := by simp [emptyAndUseless]
  refine ⟨?_, ?_, ?_⟩
  · intro hns
    apply createToken_eq_err_of_validate _ _ _ _ _ hg
    rw [validate_eq_notString]
    exact ⟨v, hb, hns⟩
  · intro s hs hlen
    apply createToken_eq_err_of_validate _ _ _ _ _ hg
    rw [validate_eq_tooLong]
    exact ⟨s, by rw [← hs]; exact hb, hlen⟩
  · intro s hs hlen
    exact validate_uid_ok (some m) (optAdmin options) s (by rw [← hs]; exact hb) hlen

/-- Witness for C5 at three concrete payloads: an integer uid, a 257-byte
uid, and a 1-byte uid. -/
theorem c5_w :
    createToken "secret" (some payloadNotString) none 0 = .error Err.uidNotString ∧
    createToken "secret" (some payloadOver) none 0 = .error Err.uidTooLong ∧
    validate (some (payloadA.getD [])) (optAdmin none) = none := by
  refine ⟨?_, ?_, ?_⟩
  · exact (c5_uid_checks "secret" payloadNotString none 0 (JVal.jint 42) rfl).1
      (by intro s; simp)
  · exact (c5_uid_checks "secret" payloadOver none 0 (JVal.jstr uidOver) rfl).2.1
      uidOver rfl (by decide)
  · exact (c5_uid_checks "secret" (payloadA.getD []) none 0 (JVal.jstr "1") rfl).2.2
      "1" rfl (by decide)

/-- Claim C6 (confirmed): a successfully returned token is at most 1024
bytes long, and when the validations pass but the assembled token exceeds
1024 bytes CreateToken fails with the token-too-long error. -/
theorem c6_length_cap (secret : String) (data : Option Data) (options : Option TokenOption)
    (now : Int) :
    (∀ tok, createToken secret data options now = .ok tok →
      (strToBytes tok).length ≤ 1024) ∧
    (emptyAndUseless data options = false → validate data (optAdmin options) = none →
      1024 < (strToBytes (tokenOf secret data options now)).length →
      createToken secret data options now = .error Err.tokenTooLong) := by
  refine ⟨fun tok h => createToken_ok_le h, fun hg hv hlen => ?_⟩
  rw [createToken_eq_tokenTooLong_iff]
  exact ⟨hg, hv, hlen⟩

/-- Witness for C6: a small token is within the cap; a 1059-byte token is
refused as too long. -/
theorem c6_w :
    (strToBytes (tokenOf "secret" payloadA none 0)).length ≤ 1024 ∧
    createToken "secret" payloadBig none 0 = .error Err.tokenTooLong := by
  constructor
  · exact (c6_length_cap "secret" payloadA none 0).1 (tokenOf "secret" payloadA none 0)
      (by rfl)
  · exact (c6_length_cap "secret" payloadBig none 0).2 (by rfl) (by rfl) (by decide)

/-! ## Character-level facts for the structural claim -/

theorem encode_chars (l : List Nat) (c : Char) (h : c ∈ (encode l).data) : c ∈ alphaList :=
  b64chars_mem l c (by rwa [encode_data] at h)

theorem no_dot_of_alpha (s : String) (hs : ∀ c ∈ s.data, c ∈ alphaList) :
    s.data.count '.' = 0 :=
  List.count_eq_zero.mpr (fun hmem => by have hin := hs '.' hmem; revert hin; decide)

theorem no_eq_of_alpha (s : String) (hs : ∀ c ∈ s.data, c ∈ alphaList) :
    '=' ∉ s.data :=
  fun hmem => by have hin := hs '=' hmem; revert hin; decide

theorem encodedHeader_chars (c : Char) (h : c ∈ encodedHeader.data) : c ∈ alphaList :=
  encode_chars (strToBytes headerJson) c h

theorem sign_chars (message secret : String) (c : Char)
    (h : c ∈ (sign message secret).data) : c ∈ alphaList :=
  encode_chars _ c h

/-- Claim C7 (confirmed): every successfully returned token splits as
three non-empty segments over the URL-safe base64 alphabet joined by ".",
contains exactly two "." characters, and contains no "=" padding. -/
theorem c7_structure (secret : String) (data : Option Data) (options : Option TokenOption)
    (now : Int) (tok : String) (h : createToken secret data options now = .ok tok) :
    ∃ s1 s2 s3, tok = s1 ++ tokenSep ++ s2 ++ tokenSep ++ s3 ∧
      s1 ≠ "" ∧ s2 ≠ "" ∧ s3 ≠ "" ∧
      (∀ c ∈ s1.data, c ∈ alphaList) ∧ (∀ c ∈ s2.data, c ∈ alphaList) ∧
      (∀ c ∈ s3.data, c ∈ alphaList) ∧
      '=' ∉ tok.data ∧ tok.data.count '.' = 2 := by
  have htok : tok = tokenOf secret data options now := createToken_ok h
  refine ⟨encodedHeader, encode (strToBytes (claimJson data options now)),
    sign (signingInput data options now) secret, ?_, ?_, ?_, ?_,
    encodedHeader_chars, fun c hc => encode_chars _ c hc,
    sign_chars (signingInput data options now) secret, ?_, ?_⟩
  · rw [htok]
    exact tokenOf_eq secret data options now
  · exact fun he => by
      have hd : encodedHeader.data = [] := by rw [he]
      revert hd
      decide
  · exact encode_ne_empty _ (strToBytes_claimJson_ne_nil data options now)
  · rw [sign_eq]
    exact encode_ne_empty _ (sign_bytes_ne_nil _ _)
  · rw [htok, tokenOf_eq]
    simp only [String.data_append]
    intro hmem
    rcases List.mem_append.mp hmem with hmem | hmem
    · rcases List.mem_append.mp hmem with hmem | hmem
      · rcases List.mem_append.mp hmem with hmem | hmem
        · rcases List.mem_append.mp hmem with hmem | hmem
          · exact no_eq_of_alpha _ encodedHeader_chars hmem
          · revert hmem; decide
        · exact no_eq_of_alpha _ (fun c hc => encode_chars _ c hc) hmem
      · revert hmem; decide
    · exact no_eq_of_alpha _ (sign_chars (signingInput data options now) secret) hmem
  · rw [htok, tokenOf_eq]
    simp only [String.data_append, List.count_append]
    rw [no_dot_of_alpha _ encodedHeader_chars,
      no_dot_of_alpha _ (fun c hc => encode_chars _ c hc),
      no_dot_of_alpha _ (sign_chars (signingInput data options now) secret)]
    rfl

/-- Witness for C7 at a concrete successful call. -/
theorem c7_w :
    ∃ s1 s2 s3, tokenOf "secret" payloadA none 0 = s1 ++ tokenSep ++ s2 ++ tokenSep ++ s3 ∧
      s1 ≠ "" ∧ s2 ≠ "" ∧ s3 ≠ "" ∧
      (∀ c ∈ s1.data, c ∈ alphaList) ∧ (∀ c ∈ s2.data, c ∈ alphaList) ∧
      (∀ c ∈ s3.data, c ∈ alphaList) ∧
      '=' ∉ (tokenOf "secret" payloadA none 0).data ∧
      (tokenOf "secret" payloadA none 0).data.count '.' = 2 :=
  c7_structure "secret" payloadA none 0 (tokenOf "secret" payloadA none 0) (by rfl)

/-- Claim C8 (confirmed): the first segment of every successful token is
the same constant string: the unpadded URL-safe base64 encoding of the
exact header bytes, independent of the generator and its inputs. -/
theorem c8_header (secret : String) (data : Option Data) (options : Option TokenOption)
    (now : Int) (tok : String) (h : createToken secret data options now = .ok tok) :
    (∃ rest, tok = encodedHeader ++ tokenSep ++ rest) ∧
    encodedHeader = encode (strToBytes headerJson) ∧
    headerJson = "\x7b\"alg\":\"HS256\",\"typ\":\"JWT\"\x7d" ∧
    encodedHeader = "eyJhbGciOiJIUzI1NiIsInR5cCI6IkpXVCJ9" := by
  refine ⟨?_, rfl, by decide, by decide⟩
  refine ⟨encode (strToBytes (claimJson data options now)) ++ tokenSep ++
    sign (signingInput data options now) secret, ?_⟩
  rw [createToken_ok h, tokenOf_eq]
  simp [String.append_assoc]

/-- Witness for C8 at a concrete successful call. -/
theorem c8_w :
    (∃ rest, tokenOf "secret" payloadA none 0 = encodedHeader ++ tokenSep ++ rest) ∧
    encodedHeader = encode (strToBytes headerJson) ∧
    headerJson = "\x7b\"alg\":\"HS256\",\"typ\":\"JWT\"\x7d" ∧
    encodedHeader = "eyJhbGciOiJIUzI1NiIsInR5cCI6IkpXVCJ9" :=
  c8_header "secret" payloadA none 0 (tokenOf "secret" payloadA none 0) (by rfl)

/-- Claim C9 (confirmed): in the marshalled claims of every successful
call, "v" is the integer 0, "iat" is the epoch-seconds reading taken at
minting, and each option key (nbf, exp, admin, debug) is present exactly
when the caller supplied a non-zero / non-false value, carrying that
value. -/
theorem c9_claim_fields (secret : String) (data : Option Data) (options : Option TokenOption)
    (now : Int) (tok : String) (h : createToken secret data options now = .ok tok) :
    List.lookup "v" (claimFields data options now) = some (CVal.cint 0) ∧
    List.lookup "iat" (claimFields data options now) = some (CVal.cint now) ∧
    List.lookup "nbf" (claimFields data options now) =
      (if optNbf options = 0 then none else some (CVal.cint (optNbf options))) ∧
    List.lookup "exp" (claimFields data options now) =
      (if optExp options = 0 then none else some (CVal.cint (optExp options))) ∧
    List.lookup "admin" (claimFields data options now) =
      (if optAdmin options then some (CVal.cbool true) else none) ∧
    List.lookup "debug" (claimFields data options now) =
      (if optDebug options then some (CVal.cbool true) else none) ∧
    tok = encodedHeader ++ tokenSep ++ encode (strToBytes (claimJson data options now)) ++
      tokenSep ++ sign (signingInput data options now) secret :=
  ⟨lookup_claimFields_v data options now, lookup_claimFields_iat data options now,
    lookup_claimFields_nbf data options now, lookup_claimFields_exp data options now,
    lookup_claimFields_admin data options now, lookup_claimFields_debug data options now,
    by rw [createToken_ok h]; exact tokenOf_eq secret data options now⟩

/-- Witness for C9 at a concrete successful admin-token call. -/
theorem c9_w :
    List.lookup "v" (claimFields none (some optionsAdmin) 7) = some (CVal.cint 0) ∧
    List.lookup "iat" (claimFields none (some optionsAdmin) 7) = some (CVal.cint 7) ∧
    List.lookup "nbf" (claimFields none (some optionsAdmin) 7) =
      (if optNbf (some optionsAdmin) = 0 then none
       else some (CVal.cint (optNbf (some optionsAdmin)))) ∧
    List.lookup "exp" (claimFields none (some optionsAdmin) 7) =
      (if optExp (some optionsAdmin) = 0 then none
       else some (CVal.cint (optExp (some optionsAdmin)))) ∧
    List.lookup "admin" (claimFields none (some optionsAdmin) 7) =
      (if optAdmin (some optionsAdmin) then some (CVal.cbool true) else none) ∧
    List.lookup "debug" (claimFields none (some optionsAdmin) 7) =
      (if optDebug (some optionsAdmin) then some (CVal.cbool true) else none) ∧
    tokenOf "secret" none (some optionsAdmin) 7 =
      encodedHeader ++ tokenSep ++
        encode (strToBytes (claimJson none (some optionsAdmin) 7)) ++
        tokenSep ++ sign (signingInput none (some optionsAdmin) 7) "secret" :=
  c9_claim_fields "secret" none (some optionsAdmin) 7
    (tokenOf "secret" none (some optionsAdmin) 7) (by rfl)

/-- Claim C10 (confirmed): `sign` returns the unpadded URL-safe base64
encoding of the message bytes followed by the HMAC-SHA256 tag of the EMPTY
message under the secret; the trailing 32 bytes of the encoded byte string
are therefore that constant tag, the same for every message signed under
the same secret. -/
theorem c10_sign_shape (secret message message2 : String) :
    sign message secret = encode (strToBytes message ++ hmacTag (strToBytes secret) []) ∧
    (hmacTag (strToBytes secret) []).length = 32 ∧
    ((strToBytes message ++ hmacTag (strToBytes secret) []).drop
        ((strToBytes message ++ hmacTag (strToBytes secret) []).length - 32) =
      hmacTag (strToBytes secret) []) ∧
    ((strToBytes message ++ hmacTag (strToBytes secret) []).drop
        ((strToBytes message ++ hmacTag (strToBytes secret) []).length - 32) =
      (strToBytes message2 ++ hmacTag (strToBytes secret) []).drop
        ((strToBytes message2 ++ hmacTag (strToBytes secret) []).length - 32)) := by
  have hdrop : ∀ msg : String,
      (strToBytes msg ++ hmacTag (strToBytes secret) []).drop
        ((strToBytes msg ++ hmacTag (strToBytes secret) []).length - 32) =
        hmacTag (strToBytes secret) [] := by
    intro msg
    rw [List.length_append, hmacTag_length]
    have harith : (strToBytes msg).length + 32 - 32 = (strToBytes msg).length := by omega
    rw [harith]
    exact List.drop_left _ _
  exact ⟨sign_eq message secret, hmacTag_length _ _, hdrop message,
    by rw [hdrop message, hdrop message2]⟩

end Fireauth
